import Mathlib

/-!
# Verification of the task/quiz web application core

Shallow embedding of the application's core logic (state-store task
actions, cap/goal tracking, validators, regex-based search pipeline,
import/export, quiz choice construction) together with proofs of the
specification's claims about it.

Modelling conventions:
* JavaScript numbers are modelled as rationals (`ℚ`); the values the
  claims touch are exactly representable, and `Math.round` agrees with
  Mathlib's `round` (half away from zero towards `+∞`) on them.
* JavaScript strings are Lean `String`s; absent (`undefined`) or `null`
  fields are `Option`s with `none`.
* The browser persistence adapter (`saveTasks`) is an explicit function
  parameter `save : List Task → Bool`.
* `generateTimestamp()` / `generateId()` are explicit parameters.
-/

namespace Planner

/-! ## Cap / weekly-goal tracking (`taskActions.updateCapStatus`, part_002) -/

/-- Result record written to `state.capSettings` by `updateCapStatus`. -/
structure CapSettings where
  durationCap : ℚ
  currentWeekDuration : ℚ
  isOverCap : Bool
  capStatus : String
  percentage : ℤ
deriving Repr, DecidableEq

/-- `settings.durationCap || 40` — the JS `||` replaces the falsy values
`0`, `null` and `undefined` (modelled as `some 0` and `none`) by the
default goal of `40`. -/
def effectiveDurationCap (settingsDurationCap : Option ℚ) : ℚ :=
  match settingsDurationCap with
  | none => 40
  | some c => if c = 0 then 40 else c

/-- `taskActions.updateCapStatus(stateManager, currentDuration = null)`
(part_002 lines 488–513).  `settingsDurationCap` is the stored
`settings.durationCap`; `currentDuration = none` models the `null`
default, which falls back to `stats.totalDuration`. -/
def updateCapStatus (settingsDurationCap : Option ℚ)
    (currentDuration : Option ℚ) (statsTotalDuration : ℚ) : CapSettings :=
  let durationCap := effectiveDurationCap settingsDurationCap
  let actualDuration := currentDuration.getD statsTotalDuration
  let isOverCap : Bool := actualDuration > durationCap
  let percentage : ℚ := actualDuration / durationCap * 100
  let capStatus : String :=
    if percentage > 100 then "success"
    else if percentage > 80 then "warning"
    else "success"
  { durationCap := durationCap
    currentWeekDuration := actualDuration
    isOverCap := isOverCap
    capStatus := capStatus
    percentage := round percentage }

/-- The three-tier rule exactly as the claim words it, applied to the
(rounded) `percentage` field: `success` when `percentage ≤ 80` or
`percentage > 100`, `warning` when `80 < percentage ≤ 100`. -/
def claimCapTier (percentage : ℤ) : String :=
  if percentage ≤ 80 ∨ percentage > 100 then "success" else "warning"

/-! ## Date validation (part_004 `VALIDATION_RULES.date` / `dueDate`)

The regex leaves are hand-compiled from
`^\d{4}-(0[1-9]|1[0-2])-(0[1-9]|[12]\d|3[01])(?:T([01]\d|2[0-3]):[0-5][0-9])?$`.
The `test` function's `new Date(datePart)` + `toISOString()` round-trip is
modelled by `jsIsoRoundTrip`: for a strict `YYYY-MM-DD`-shaped string the JS
`Date` ISO parser accepts it exactly when it denotes a real calendar date
(and then `toISOString` reproduces it); any other string either fails that
comparison or is rejected by the accompanying regex, so the conjunction
`validateFieldDateL` is faithful. -/
def digit2 (a b : Char) : Nat := 10 * (a.toNat - 48) + (b.toNat - 48)

def digit4 (a b c d : Char) : Nat :=
  1000 * (a.toNat - 48) + 100 * (b.toNat - 48) + 10 * (c.toNat - 48) + (d.toNat - 48)

def isLeapYear (y : Nat) : Bool := (y % 4 = 0 && y % 100 ≠ 0) || y % 400 = 0

def daysInMonth (y m : Nat) : Nat :=
  if m = 2 then (if isLeapYear y then 29 else 28)
  else if m = 4 ∨ m = 6 ∨ m = 9 ∨ m = 11 then 30
  else 31

def isRealDate (y m d : Nat) : Bool :=
  1 ≤ m && m ≤ 12 && 1 ≤ d && d ≤ daysInMonth y m

/-! Character-class leaves of the date regex -/

def between (lo hi c : Char) : Bool := lo ≤ c && c ≤ hi

def monthPat (m1 m2 : Char) : Bool :=
  (m1 = '0' && between '1' '9' m2) || (m1 = '1' && between '0' '2' m2)

def dayPat (d1 d2 : Char) : Bool :=
  (d1 = '0' && between '1' '9' d2) || ((d1 = '1' || d1 = '2') && d2.isDigit) ||
    (d1 = '3' && (d2 = '0' || d2 = '1'))

def hourPat (h1 h2 : Char) : Bool :=
  ((h1 = '0' || h1 = '1') && h2.isDigit) || (h1 = '2' && between '0' '3' h2)

def minutePat (n1 n2 : Char) : Bool := between '0' '5' n1 && n2.isDigit

def datePattern (l : List Char) : Bool :=
  match l with
  | y1 :: y2 :: y3 :: y4 :: '-' :: m1 :: m2 :: '-' :: d1 :: d2 :: rest =>
      y1.isDigit && y2.isDigit && y3.isDigit && y4.isDigit &&
      monthPat m1 m2 && dayPat d1 d2 &&
      (match rest with
       | [] => true
       | 'T' :: h1 :: h2 :: ':' :: n1 :: n2 :: [] => hourPat h1 h2 && minutePat n1 n2
       | _ => false)
  | _ => false

def timeFormatPat (l : List Char) : Bool :=
  match l with
  | [b, ':', n1, n2] => b.isDigit && minutePat n1 n2
  | [a, b, ':', n1, n2] =>
      (((a = '0' || a = '1') && b.isDigit) || (a = '2' && between '0' '3' b)) && minutePat n1 n2
  | _ => false

def jsIsoRoundTrip (l : List Char) : Bool :=
  match l with
  | [y1, y2, y3, y4, '-', m1, m2, '-', d1, d2] =>
      y1.isDigit && y2.isDigit && y3.isDigit && y4.isDigit &&
      m1.isDigit && m2.isDigit && d1.isDigit && d2.isDigit &&
      isRealDate (digit4 y1 y2 y3 y4) (digit2 m1 m2) (digit2 d1 d2)
  | _ => false

def dateTest (l : List Char) : Bool :=
  if l.isEmpty then false
  else
    let datePart := l.takeWhile (fun c => c ≠ 'T')
    let rest := l.dropWhile (fun c => c ≠ 'T')
    jsIsoRoundTrip datePart &&
      (match rest with
       | [] => true
       | _ :: tail =>
           let part1 := tail.takeWhile (fun c => c ≠ 'T')
           if part1.isEmpty then true else timeFormatPat part1)

def validateFieldDateL (l : List Char) : Bool := dateTest l && datePattern l

def validateField_date (s : String) : Bool := validateFieldDateL s.data

/-! Spec-side definition, from the claim's words -/

def specDateCore (y1 y2 y3 y4 m1 m2 d1 d2 : Char) : Bool :=
  y1.isDigit && y2.isDigit && y3.isDigit && y4.isDigit &&
  m1.isDigit && m2.isDigit && d1.isDigit && d2.isDigit &&
  isRealDate (digit4 y1 y2 y3 y4) (digit2 m1 m2) (digit2 d1 d2)

def specTimeValid (h1 h2 n1 n2 : Char) : Bool :=
  h1.isDigit && h2.isDigit && n1.isDigit && n2.isDigit &&
  digit2 h1 h2 ≤ 23 && digit2 n1 n2 ≤ 59

def dateSpecAcceptsL (l : List Char) : Bool :=
  match l with
  | [y1, y2, y3, y4, '-', m1, m2, '-', d1, d2] =>
      specDateCore y1 y2 y3 y4 m1 m2 d1 d2
  | [y1, y2, y3, y4, '-', m1, m2, '-', d1, d2, 'T', h1, h2, ':', n1, n2] =>
      specDateCore y1 y2 y3 y4 m1 m2 d1 d2 && specTimeValid h1 h2 n1 n2
  | _ => false

def dateSpecAccepts (s : String) : Bool := dateSpecAcceptsL s.data

/-! ## Validators for the remaining fields (part_004 `VALIDATION_RULES`) -/

/-- JS whitespace (as used by `\s`, `.trim()`): space, tab, line terminators,
vertical tab, form feed, NBSP, BOM (ASCII-range model plus NBSP/BOM). -/
def isJsSpace (c : Char) : Bool :=
  c = ' ' || c = '\t' || c = '\n' || c = '\r' ||
  c = Char.ofNat 11 || c = Char.ofNat 12 || c = Char.ofNat 160 || c = Char.ofNat 65279

/-- JS line terminators, which `.` (dotall off) does not match. -/
def isLineTerm (c : Char) : Bool :=
  c = '\n' || c = '\r' || c = Char.ofNat 8232 || c = Char.ofNat 8233

/-- `String.prototype.trim()`. -/
def trimChars (l : List Char) : List Char :=
  ((l.dropWhile isJsSpace).reverse.dropWhile isJsSpace).reverse

def jsTrim (s : String) : String := ⟨trimChars s.data⟩

/-- Tail of the title regex: the chars after the first are `.*\S`, so all but
the last are `.`-matchable (no line terminator) and the last is `\S`. -/
def titleTail : List Char → Bool
  | [] => false
  | [d] => !isJsSpace d
  | d :: rest => !isLineTerm d && titleTail rest

/-- Title regex `^\S(?:.*\S)?$`. -/
def titlePattern : List Char → Bool
  | [] => false
  | [c] => !isJsSpace c
  | c :: rest => !isJsSpace c && titleTail rest

/-- `title` rule: `test` (truthy and non-blank after trim) AND the regex. -/
def validateField_title (s : String) : Bool :=
  (!s.data.isEmpty && !(trimChars s.data).isEmpty) && titlePattern s.data

/-- `duration` rule on the stored number: `test` is `0 < n ≤ 1000`; the regex
`^(0|[1-9]\d*)(\.\d{1,2})?$` on the decimal rendering of the number means
non-negative with at most two decimal places, i.e. `100·n` is an integer,
equivalently the reduced denominator divides 100.  Comparisons are the
executable `Rat.blt` (`a < b`). -/
def validateField_duration (d : ℚ) : Bool :=
  (Rat.blt 0 d && !Rat.blt 1000 d) && (!Rat.blt d 0 && (100 % d.den == 0))

/-- JS `\w` (ASCII word chars). -/
def isWordChar (c : Char) : Bool := c.isAlpha || c.isDigit || c = '_'

/-- Character class `[\w\s&(),-]` of the tag regex. -/
def tagClassChar (c : Char) : Bool :=
  isWordChar c || isJsSpace c || c = '&' || c = '(' || c = ')' || c = ',' || c = '-'

/-- `tag` rule: `test` (truthy, non-blank after trim, length ≤ 100) AND
regex `^[\w\s&(),-]+$`. -/
def validateField_tag (s : String) : Bool :=
  (!s.data.isEmpty && !(trimChars s.data).isEmpty && decide (s.data.length ≤ 100)) &&
  (!s.data.isEmpty && s.data.all tagClassChar)

/-! ## Task records and the state-store task actions (part_002) -/

/-- A task record as stored in the state tree.  Absent/`null` `completedAt`
is `none`. -/
structure Task where
  id : String
  title : String
  dueDate : String
  duration : ℚ
  tag : String
  description : String := ""
  completed : Bool := false
  completedAt : Option String := none
  createdAt : String := ""
  updatedAt : String := ""
deriving Repr, DecidableEq

/-- Field errors as an association list, mirroring the `errors` object of
`validateTask`. -/
structure ValidationResult where
  isValid : Bool
  errors : List (String × String)
deriving Repr, DecidableEq

/-- One required-field check of `validateTask`: falsy value → "required"
error; otherwise the `validateField` rule decides.  (The non-blocking
`warnings`, which never affect `isValid` nor any caller, are omitted.) -/
def requiredCheck (fieldName : String) (falsy valid : Bool) (msg : String) :
    List (String × String) :=
  if falsy then [(fieldName, fieldName ++ " is required")]
  else if !valid then [(fieldName, msg)] else []

/-- `validateTask` over the four required fields (part_004 lines 172–220).
`isValid` reflects only hard errors. -/
def validateTaskCore (title dueDate : String) (duration : ℚ) (tag : String) :
    ValidationResult :=
  let errs :=
    requiredCheck "title" title.data.isEmpty (validateField_title title)
      "Title cannot have leading/trailing spaces and must contain at least one non-space character" ++
    requiredCheck "dueDate" dueDate.data.isEmpty (validateField_date dueDate)
      "Due date must be in YYYY-MM-DD or YYYY-MM-DDTHH:MM format" ++
    requiredCheck "duration" (decide (duration = 0)) (validateField_duration duration)
      "Duration must be a positive number with up to 2 decimal places" ++
    requiredCheck "tag" tag.data.isEmpty (validateField_tag tag)
      "Priority must be selected from the dropdown"
  { isValid := errs.isEmpty, errors := errs }

def validateTask (t : Task) : ValidationResult :=
  validateTaskCore t.title t.dueDate t.duration t.tag

/-- Raw form data handed to `addTask` (duration already as the number that
`parseFloat` yields). -/
structure TaskFormData where
  title : String
  dueDate : String
  duration : ℚ
  tag : String
  description : Option String := none
deriving Repr, DecidableEq

def validateTaskData (d : TaskFormData) : ValidationResult :=
  validateTaskCore d.title d.dueDate d.duration d.tag

/-- An `updates` object passed to `updateTask`: `none` = property absent,
`some v` = property present with value `v` (`completedAt` may be present
with value `null`, hence `Option (Option _)`). -/
structure TaskPatch where
  id : Option String := none
  title : Option String := none
  dueDate : Option String := none
  duration : Option ℚ := none
  tag : Option String := none
  description : Option String := none
  completed : Option Bool := none
  completedAt : Option (Option String) := none
  createdAt : Option String := none
deriving Repr

/-- The slice of the state tree the task actions read and write. -/
structure TaskState where
  tasks : List Task
  error : Option String := none
  success : Option String := none
  formErrors : List (String × String) := []
deriving Repr, DecidableEq

/-- `{...prevTask, ...updates, updatedAt: generateTimestamp()}` followed by
the `completedAt` transition block of `updateTask` (part_002 lines 317–338). -/
def applyPatch (t : Task) (p : TaskPatch) (now : String) : Task :=
  let merged : Task :=
    { id := p.id.getD t.id
      title := p.title.getD t.title
      dueDate := p.dueDate.getD t.dueDate
      duration := p.duration.getD t.duration
      tag := p.tag.getD t.tag
      description := p.description.getD t.description
      completed := p.completed.getD t.completed
      completedAt := p.completedAt.getD t.completedAt
      createdAt := p.createdAt.getD t.createdAt
      updatedAt := now }
  match p.completed with
  | none => merged
  | some willBeCompleted =>
      let wasCompleted := t.completed
      let m1 :=
        if !wasCompleted && willBeCompleted then { merged with completedAt := some now }
        else if wasCompleted && !willBeCompleted then { merged with completedAt := none }
        else merged
      if wasCompleted && willBeCompleted && t.completedAt = none then
        { m1 with completedAt := some m1.updatedAt }
      else m1

/-- `taskActions.addTask` (part_002 lines 250–298).  `save` is the
persistence adapter `saveTasks`, `genId`/`now` the generated id and
timestamp. -/
def addTask (save : List Task → Bool) (genId now : String)
    (d : TaskFormData) (st : TaskState) : Bool × TaskState :=
  let validation := validateTaskData d
  if !validation.isValid then
    (false, { st with error := some "Invalid task data", formErrors := validation.errors })
  else
    let newTask : Task :=
      { id := genId
        title := jsTrim d.title
        dueDate := d.dueDate
        duration := d.duration
        tag := jsTrim d.tag
        description := (d.description.map jsTrim).getD ""
        completed := false
        completedAt := none
        createdAt := now
        updatedAt := now }
    let updatedTasks := st.tasks ++ [newTask]
    if save updatedTasks then
      (true, { tasks := updatedTasks, error := none,
               success := some "Task added successfully", formErrors := [] })
    else
      (false, { st with error := some "Failed to save task" })

/-- `taskActions.updateTask` (part_002 lines 306–376). -/
def updateTask (save : List Task → Bool) (now : String)
    (taskId : String) (p : TaskPatch) (st : TaskState) : Bool × TaskState :=
  let tasks := st.tasks
  match tasks.find? (fun t => t.id = taskId) with
  | none => (false, { st with error := some "Task not found" })
  | some prevTask =>
      let updatedTask := applyPatch prevTask p now
      let validation := validateTask updatedTask
      if !validation.isValid then
        (false, { st with error := some "Invalid task data", formErrors := validation.errors })
      else
        let updatedTasks := tasks.set (tasks.findIdx (fun t => t.id = taskId)) updatedTask
        if save updatedTasks then
          (true, { tasks := updatedTasks, error := none,
                   success := some "Task updated successfully", formErrors := [] })
        else
          (false, { st with error := some "Failed to save task" })

/-- `taskActions.deleteTask` (part_002 lines 383–412). -/
def deleteTask (save : List Task → Bool) (taskId : String) (st : TaskState) :
    Bool × TaskState :=
  let updatedTasks := st.tasks.filter (fun t => !(t.id = taskId))
  if updatedTasks.length = st.tasks.length then
    (false, { st with error := some "Task not found" })
  else if save updatedTasks then
    (true, { st with
              tasks := updatedTasks
              error := none
              success := some "Task deleted successfully" })
  else
    (false, { st with error := some "Failed to delete task" })

/-- The spec's invariant: `completed === true ⇔ completedAt` non-null. -/
def completedAtInvariant (t : Task) : Prop := t.completed = true ↔ t.completedAt ≠ none

instance (t : Task) : Decidable (completedAtInvariant t) := by
  unfold completedAtInvariant; infer_instance

/-- Legacy/import data: marked completed but without a timestamp. -/
def isLegacyCompleted (t : Task) : Prop := t.completed = true ∧ t.completedAt = none

instance (t : Task) : Decidable (isLegacyCompleted t) := by
  unfold isLegacyCompleted; infer_instance

/-! ## Regex engine abstraction and the `testRegex` match-collection loop
(part_004 `compileRegex`/`testRegex`, search.js `SearchManager.searchTasks`) -/

/-- Regex flags relevant to the search pipeline: `g` and `i`. -/
structure Flags where
  global : Bool
  ignoreCase : Bool
deriving Repr, DecidableEq

/-- A compiled regular expression, abstracted to its `exec` search: from a
scan position, the leftmost match at-or-after it as `(index, length)`.
`global` is the `g` flag, which drives `lastIndex` semantics. -/
structure CompiledRegex where
  find : List Char → Nat → Option (Nat × Nat)
  global : Bool

/-- One `regex.exec(text)` call as used in the `while` loop of `testRegex`:
a global regex searches from `lastIndex` and advances it to the match end;
a non-global regex ignores `lastIndex`, always searches from 0 and leaves
`lastIndex` untouched.  Returns the match and the updated `lastIndex`. -/
def execStep (r : CompiledRegex) (text : List Char) (lastIndex : Nat) :
    Option ((Nat × Nat) × Nat) :=
  if r.global then
    match r.find text lastIndex with
    | none => none
    | some (i, len) => some ((i, len), i + len)
  else
    match r.find text 0 with
    | none => none
    | some (i, len) => some ((i, len), lastIndex)

/-- The match-collection `while` loop of `testRegex` (part_004 lines
294–305), including the zero-width guard `if (match.index ===
regex.lastIndex) regex.lastIndex++`.  Explicit fuel; `none` means the fuel
ran out with the loop still running, so termination of the JS loop is
`∃ fuel, (collectMatches …).isSome`. -/
def collectMatches (r : CompiledRegex) (text : List Char) :
    Nat → Nat → Option (List (Nat × Nat))
  | 0, _ => none
  | fuel + 1, lastIndex =>
      match execStep r text lastIndex with
      | none => some []
      | some (m, li1) =>
          let li2 := if m.1 = li1 then li1 + 1 else li1
          match collectMatches r text fuel li2 with
          | none => none
          | some ms => some (m :: ms)

/-- An external regex compiler (`new RegExp(pattern, flags)`): `none` models
a thrown `SyntaxError` (malformed pattern). -/
def RegexEngine : Type := String → Flags → Option CompiledRegex

/-- `compileRegex(pattern, flags)` (part_004 lines 243–266): empty/blank
pattern is a failure; otherwise the engine may fail on a malformed
pattern.  The JS `try/catch` is the `Option`: a compilation error is a
returned failure value, never an exception. -/
def compileRegex (engine : RegexEngine) (pattern : String) (flags : Flags) :
    Option CompiledRegex :=
  if (jsTrim pattern).data.isEmpty then none
  else engine pattern flags

/-! ### The literal fragment of the JS regex engine -/

/-- Characters with special meaning in a JS regex pattern. -/
def isRegexMetachar (c : Char) : Bool :=
  c = '\\' || c = '^' || c = '$' || c = '.' || c = '|' || c = '?' || c = '*' ||
  c = '+' || c = '(' || c = ')' || c = '[' || c = ']' ||
  c = Char.ofNat 123 || c = Char.ofNat 125

/-- ASCII `toLowerCase`, the case folding the `i` flag performs on the
strings appearing in this development. -/
def jsToLower (c : Char) : Char :=
  if 'A' ≤ c && c ≤ 'Z' then Char.ofNat (c.toNat + 32) else c

def foldCase (ignoreCase : Bool) (l : List Char) : List Char :=
  if ignoreCase then l.map jsToLower else l

/-- Leftmost occurrence of `pat` in `text` at position `≥ pos` (explicit
structural fuel; `litFind` supplies enough). -/
def litFindAux (pat text : List Char) : Nat → Nat → Option Nat
  | 0, _ => none
  | fuel + 1, pos =>
      if text.length < pos then none
      else if pat.isPrefixOf (text.drop pos) then some pos
      else litFindAux pat text fuel (pos + 1)

def litFind (pat text : List Char) (pos : Nat) : Option Nat :=
  litFindAux pat text (text.length + 1 - pos) pos

/-- The compiled form of a pattern without metacharacters: plain substring
search, case-folded under the `i` flag. -/
def litRegex (ignoreCase global : Bool) (pat : String) : CompiledRegex :=
  { find := fun text pos =>
      (litFind (foldCase ignoreCase pat.data) (foldCase ignoreCase text) pos).map
        (fun i => (i, pat.data.length))
    global := global }

/-- The JS regex engine restricted to the patterns this development
reasons about: a pattern free of metacharacters compiles to the literal
substring matcher (that is exactly what `new RegExp` yields for it);
patterns containing metacharacters are out of the modelled fragment. -/
def jsLiteralEngine : RegexEngine := fun pattern flags =>
  if pattern.data.any isRegexMetachar then none
  else some (litRegex flags.ignoreCase flags.global pattern)

/-- `testRegex`'s match list for the always-global regexes the search
pipeline compiles, run with sufficient fuel (`|text| + 2` bounds the loop
for a well-behaved global regex). -/
def testRegexMatches (r : CompiledRegex) (text : List Char) : List (Nat × Nat) :=
  (collectMatches r text (text.length + 2) 0).getD []

/-- Exact (case-sensitive) substring occurrence. -/
def substringOccurs (pat text : List Char) : Bool :=
  (List.range (text.length + 1)).any (fun i => pat.isPrefixOf (text.drop i))

/-- Case-insensitive substring occurrence — how the default `gi` search
reads "occurs". -/
def ciOccurs (pat text : List Char) : Bool :=
  substringOccurs (foldCase true pat) (foldCase true text)

/-! ## The search pipeline (`SearchManager.searchTasks`, search.js 164–238) -/

structure SearchOptions where
  caseSensitive : Bool := false
  fields : List String := ["title", "description", "tag"]
  maxResults : Nat := 1000
deriving Repr, DecidableEq

/-- Dynamic field access `task[field]`; unknown names are `undefined`. -/
def getTaskField (t : Task) (f : String) : Option String :=
  if f = "title" then some t.title
  else if f = "description" then some t.description
  else if f = "tag" then some t.tag
  else none

/-- `getFieldWeight` (search.js 245–252). -/
def getFieldWeight (f : String) : Nat :=
  if f = "title" then 3
  else if f = "tag" then 2
  else if f = "description" then 1
  else 1

/-- One entry of a result's `matches` array. -/
structure FieldMatch where
  field : String
  value : String
  matches' : List (Nat × Nat)
  score : Nat
deriving Repr, DecidableEq

/-- `SearchResult` (search.js 21–28). -/
structure SearchResult where
  task : Task
  matches' : List FieldMatch := []
  score : Nat := 0
  highlightedFields : List (String × String) := []
deriving Repr, DecidableEq

/-- Wrap every (leftmost, non-overlapping) match occurrence of the global
regex in `<mark>…</mark>` — `highlightMatches` (part_004 lines 327–336). -/
def applyHighlights (text : List Char) : List (Nat × Nat) → Nat → List Char
  | [], pos => text.drop pos
  | (i, len) :: rest, pos =>
      (text.drop pos).take (i - pos) ++ "<mark>".data ++
        ((text.drop i).take len) ++ "</mark>".data ++
        applyHighlights text rest (i + len)

def highlightMatches (r : CompiledRegex) (text : List Char) : List Char :=
  applyHighlights text (testRegexMatches r text) 0

/-- Per-field matching, counting and weighting step of the task loop in
`searchTasks` (search.js 196–211): falsy (absent or empty) field values are
skipped; a field contributes when its match count is positive. -/
def scoreField (regex : CompiledRegex) (t : Task) (f : String) : Option FieldMatch :=
  match getTaskField t f with
  | none => none
  | some v =>
      if v.data.isEmpty then none
      else
        let ms := testRegexMatches regex v.data
        if 0 < ms.length then
          some { field := f, value := v, matches' := ms,
                 score := ms.length * getFieldWeight f }
        else none

/-- The per-task body of `searchTasks` (search.js 192–226): tasks with no
matching field are excluded; matched tasks carry their field matches, the
accumulated score, and highlighted field values. -/
def searchTaskResult (regex : CompiledRegex) (fields : List String) (t : Task) :
    Option SearchResult :=
  let fieldMatches := fields.filterMap (scoreField regex t)
  if fieldMatches.isEmpty then none
  else
    some { task := t
           matches' := fieldMatches
           score := (fieldMatches.map FieldMatch.score).sum
           highlightedFields := fields.filterMap (fun f =>
             match getTaskField t f with
             | none => none
             | some v =>
                 if v.data.isEmpty then none
                 else some (f, ⟨highlightMatches regex v.data⟩)) }

/-- `results.sort((a, b) => b.score - a.score)` — a stable sort descending
by score (ES2019 `Array#sort` is stable), modelled as stable insertion. -/
def insertByScoreDesc (x : SearchResult) : List SearchResult → List SearchResult
  | [] => [x]
  | y :: ys => if y.score ≤ x.score then x :: y :: ys else y :: insertByScoreDesc x ys

def sortByScoreDesc : List SearchResult → List SearchResult
  | [] => []
  | x :: xs => insertByScoreDesc x (sortByScoreDesc xs)

/-- `SearchManager.searchTasks(query, tasks, options)` (search.js 164–238).
The query/result memo cache is omitted: entries only ever hold what this
same computation produced for the key, and `initialize()` clears it on
every data change.  `engine` abstracts `new RegExp`. -/
def searchTasks (engine : RegexEngine) (query : String) (tasks : List Task)
    (opts : SearchOptions) : List SearchResult :=
  if (jsTrim query).data.isEmpty then
    tasks.map (fun t => { task := t })
  else
    let flags : Flags := { global := true, ignoreCase := !opts.caseSensitive }
    match compileRegex engine query flags with
    | none => []
    | some regex =>
        let results := tasks.filterMap (searchTaskResult regex opts.fields)
        (sortByScoreDesc results).take opts.maxResults


/-- Case-insensitive substring occurrence of `q` in a field value — the
reading of "occurs" matching the default `gi` search. -/
def ciOccursIn (q v : String) : Bool :=
  substringOccurs (foldCase true q.data) (foldCase true v.data)

def ciOccursInTask (q : String) (t : Task) : Bool :=
  ciOccursIn q t.title || ciOccursIn q t.description || ciOccursIn q t.tag

/-- Exact (case-sensitive) substring occurrence in some searched field. -/
def exactOccursInTask (q : String) (t : Task) : Bool :=
  substringOccurs q.data t.title.data || substringOccurs q.data t.description.data ||
    substringOccurs q.data t.tag.data

/-! ## JSON values and export/import (part_005 storage module) -/

/-- A JSON value.  `JSON.stringify`/`JSON.parse` round-trip is the identity
on these (JSON-safe data), so the export string is modelled by the value
tree itself. -/
inductive JVal where
  | null : JVal
  | bool : Bool → JVal
  | num : ℚ → JVal
  | str : String → JVal
  | arr : List JVal → JVal
  | obj : List (String × JVal) → JVal
deriving Repr

/-- `obj.hasOwnProperty(k)` / property lookup (JSON object keys are
unique). -/
def jlookup (fields : List (String × JVal)) (k : String) : Option JVal :=
  match fields with
  | [] => none
  | (k', v) :: rest => if k' = k then some v else jlookup rest k

/-- JS truthiness of a JSON value. -/
def jtruthy : JVal → Bool
  | .null => false
  | .bool b => b
  | .num q => !(q == 0)
  | .str s => !s.data.isEmpty
  | .arr _ => true
  | .obj _ => true

/-- `typeof v === 'object'` (arrays and objects; `null` is handled by the
truthiness check before it in the source). -/
def jisObjectType : JVal → Bool
  | .null => true
  | .arr _ => true
  | .obj _ => true
  | _ => false

def jisString : JVal → Bool
  | .str _ => true
  | _ => false

/-- `validateTaskStructure(task)` (part_005 lines 2728–2764). -/
def validateTaskStructure (task : JVal) : Bool :=
  match task with
  | .obj fields =>
      let requiredOk := ["id", "title", "dueDate", "duration", "tag"].all fun f =>
        match jlookup fields f with
        | none => false
        | some .null => false
        | some _ => true
      let typesOk :=
        (match jlookup fields "id" with | some v => jisString v | none => false) &&
        (match jlookup fields "title" with | some v => jisString v | none => false) &&
        (match jlookup fields "dueDate" with | some v => jisString v | none => false) &&
        (match jlookup fields "tag" with | some v => jisString v | none => false) &&
        (match jlookup fields "duration" with
         | some (.num q) => !Rat.blt q 0
         | _ => false)
      let optionalOk :=
        (match jlookup fields "description" with | none => true | some v => jisString v) &&
        (match jlookup fields "createdAt" with | none => true | some v => jisString v) &&
        (match jlookup fields "updatedAt" with | none => true | some v => jisString v)
      requiredOk && typesOk && optionalOk
  | _ => false

/-- `exportData(tasks, settings)` (part_005 lines 2660–2669), as the parsed
form of the JSON string it produces. -/
def exportData (now : String) (tasks : List JVal) (settings : JVal) : JVal :=
  .obj [("version", .str "1.0"), ("exportedAt", .str now),
        ("tasks", .arr tasks), ("settings", settings)]

structure ImportResult where
  success : Bool
  tasks : List JVal
  settings : JVal
  errors : List String
deriving Repr

/-- `importData(jsonString)` (part_005 lines 2676–2721) on the parsed JSON
value (`JSON.parse` failure and the `!data || typeof data !== 'object'`
throw both land in the `catch`, giving `success: false`). -/
def importData (v : JVal) : ImportResult :=
  if !(jtruthy v) || !(jisObjectType v) then
    { success := false, tasks := [], settings := .null,
      errors := ["Invalid data format"] }
  else
    let tasksPart : List JVal × List String :=
      match v with
      | .obj fields =>
          match jlookup fields "tasks" with
          | some (.arr ts) =>
              let valid := ts.filter validateTaskStructure
              let invalidCount := ts.length - valid.length
              (valid,
               if 0 < invalidCount then
                 [toString invalidCount ++ " tasks were skipped due to invalid structure"]
               else [])
          | some tv =>
              if jtruthy tv then ([], ["Tasks data is not in the expected format"])
              else ([], [])
          | none => ([], [])
      | _ => ([], [])
    let settingsPart : JVal :=
      match v with
      | .obj fields =>
          match jlookup fields "settings" with
          | some sv => if jtruthy sv && jisObjectType sv then sv else .null
          | none => .null
      | _ => .null
    { success := true, tasks := tasksPart.1, settings := settingsPart,
      errors := tasksPart.2 }


/-! ## Quiz choice construction (`renderQuestion`, part_006 lines 119–136) -/

/-- The placeholder label pool used when fewer than 4 labels are known. -/
def fallbackPool : List String :=
  ["Elephant", "Baobab Tree", "Drum", "Kente Cloth", "Mask", "Giraffe", "Lion", "Zebra"]

/-- `questions.map(s => s.label).filter(Boolean)`. -/
def questionLabels (qs : List (Option String)) : List String := qs.filterMap id

/-- The choice-set construction of `renderQuestion`: `shuffle` is modelled
by the permutation functions `sh1`/`sh2` (Fisher–Yates realises every
permutation, the identity among them). -/
def renderChoices (sh1 sh2 : List String → List String)
    (qs : List (Option String)) (correct : String) : List String :=
  let labels := questionLabels qs
  let pool := if 4 ≤ labels.length then labels else fallbackPool
  let distractors := (sh1 (pool.filter (fun l => !(l = correct)))).take 3
  sh2 (correct :: distractors)

/-! ## Concrete data for witnesses and counterexamples -/

def cexTask : Task :=
  { id := "t1", title := "Read Chapter 4", dueDate := "2099-01-01",
    duration := 2, tag := "Homework",
    createdAt := "2025-01-01T00:00:00.000Z", updatedAt := "2025-01-01T00:00:00.000Z" }

def cexPatch : TaskPatch := { completedAt := some (some "2025-02-02T00:00:00.000Z") }

def cexState : TaskState := { tasks := [cexTask] }

/-- A legacy/import task: marked completed but without a timestamp. -/
def legacyTask : Task :=
  { id := "t2", title := "Week review", dueDate := "2099-02-01",
    duration := 1, tag := "Work", completed := true, completedAt := none,
    createdAt := "2025-01-01T00:00:00.000Z", updatedAt := "2025-01-01T00:00:00.000Z" }

def legacyState : TaskState := { tasks := [legacyTask] }

def searchT1 : Task :=
  { id := "s1", title := "Chores", dueDate := "2099-01-01", duration := 1, tag := "WORK" }

def searchT2 : Task :=
  { id := "s2", title := "work tonight", dueDate := "2099-01-02", duration := 1, tag := "Play" }

def importTask1 : JVal :=
  .obj [("id", .str "a1"), ("title", .str "Read"), ("dueDate", .str "2099-01-01"),
        ("duration", .num 2), ("tag", .str "Homework"), ("description", .str "ch 4")]

def importSettings : List (String × JVal) :=
  [("timeUnit", .str "hours"), ("durationCap", .num 40)]

end Planner

namespace Planner

/-! # Helper lemmas

Bridging lemmas for characters, then the supporting results for the date
equivalence, the state actions, and the search pipeline. -/

lemma charLe_iff (a b : Char) : (a ≤ b) ↔ a.toNat ≤ b.toNat := Iff.rfl

lemma charEq_iff (a b : Char) : (a = b) ↔ a.toNat = b.toNat := by
  rw [Char.ext_iff, UInt32.ext_iff]; exact Iff.rfl

lemma isDigit_iff (c : Char) : c.isDigit = true ↔ 48 ≤ c.toNat ∧ c.toNat ≤ 57 := by
  simp [Char.isDigit, decide_eq_true_iff]; exact Iff.rfl

lemma toNat_c0 : ('0' : Char).toNat = 48 := rfl
lemma toNat_c1 : ('1' : Char).toNat = 49 := rfl
lemma toNat_c2 : ('2' : Char).toNat = 50 := rfl
lemma toNat_c3 : ('3' : Char).toNat = 51 := rfl
lemma toNat_c5 : ('5' : Char).toNat = 53 := rfl
lemma toNat_c9 : ('9' : Char).toNat = 57 := rfl
lemma toNat_cT : ('T' : Char).toNat = 84 := rfl

lemma ne_T_of_digit {c : Char} (h : c.isDigit = true) : ¬(c = 'T') := by
  rw [charEq_iff, toNat_cT]
  rw [isDigit_iff] at h
  omega

lemma dash_ne_T : ¬(('-' : Char) = 'T') := by decide
lemma colon_ne_T : ¬((':' : Char) = 'T') := by decide

lemma monthPat_iff (m1 m2 : Char) :
    monthPat m1 m2 = true ↔
      (m1.isDigit = true ∧ m2.isDigit = true ∧ 1 ≤ digit2 m1 m2 ∧ digit2 m1 m2 ≤ 12) := by
  simp only [monthPat, between, Bool.or_eq_true, Bool.and_eq_true, decide_eq_true_iff,
    charLe_iff, charEq_iff, isDigit_iff, digit2, toNat_c0, toNat_c1, toNat_c2, toNat_c9]
  omega

lemma dayPat_iff (d1 d2 : Char) :
    dayPat d1 d2 = true ↔
      (d1.isDigit = true ∧ d2.isDigit = true ∧ 1 ≤ digit2 d1 d2 ∧ digit2 d1 d2 ≤ 31) := by
  simp only [dayPat, between, Bool.or_eq_true, Bool.and_eq_true, decide_eq_true_iff,
    charLe_iff, charEq_iff, isDigit_iff, digit2, toNat_c0, toNat_c1, toNat_c2, toNat_c3,
    toNat_c9]
  omega

lemma hourPat_iff (h1 h2 : Char) :
    hourPat h1 h2 = true ↔
      (h1.isDigit = true ∧ h2.isDigit = true ∧ digit2 h1 h2 ≤ 23) := by
  simp only [hourPat, between, Bool.or_eq_true, Bool.and_eq_true, decide_eq_true_iff,
    charLe_iff, charEq_iff, isDigit_iff, digit2, toNat_c0, toNat_c1, toNat_c2, toNat_c3]
  omega

lemma minutePat_iff (n1 n2 : Char) :
    minutePat n1 n2 = true ↔
      (n1.isDigit = true ∧ n2.isDigit = true ∧ digit2 n1 n2 ≤ 59) := by
  simp only [minutePat, between, Bool.or_eq_true, Bool.and_eq_true, decide_eq_true_iff,
    charLe_iff, charEq_iff, isDigit_iff, digit2, toNat_c0, toNat_c5]
  omega

lemma isRealDate_month {y m d : Nat} (h : isRealDate y m d = true) :
    1 ≤ m ∧ m ≤ 12 ∧ 1 ≤ d ∧ d ≤ 31 := by
  simp only [isRealDate, Bool.and_eq_true, decide_eq_true_iff] at h
  have hd : daysInMonth y m ≤ 31 := by
    unfold daysInMonth
    split_ifs <;> simp_all
  omega

lemma datePattern_true_elim {l : List Char} (h : datePattern l = true) :
    (∃ y1 y2 y3 y4 m1 m2 d1 d2,
       l = [y1, y2, y3, y4, '-', m1, m2, '-', d1, d2] ∧
       y1.isDigit = true ∧ y2.isDigit = true ∧ y3.isDigit = true ∧ y4.isDigit = true ∧
       monthPat m1 m2 = true ∧ dayPat d1 d2 = true) ∨
    (∃ y1 y2 y3 y4 m1 m2 d1 d2 t1 t2 n1 n2,
       l = [y1, y2, y3, y4, '-', m1, m2, '-', d1, d2, 'T', t1, t2, ':', n1, n2] ∧
       y1.isDigit = true ∧ y2.isDigit = true ∧ y3.isDigit = true ∧ y4.isDigit = true ∧
       monthPat m1 m2 = true ∧ dayPat d1 d2 = true ∧
       hourPat t1 t2 = true ∧ minutePat n1 n2 = true) := by
  unfold datePattern at h
  split at h
  case _ y1 y2 y3 y4 m1 m2 d1 d2 rest =>
    split at h
    case _ =>
      simp only [Bool.and_eq_true] at h
      exact Or.inl ⟨y1, y2, y3, y4, m1, m2, d1, d2, rfl,
        h.1.1.1.1.1.1, h.1.1.1.1.1.2, h.1.1.1.1.2, h.1.1.1.2, h.1.1.2, h.1.2⟩
    case _ t1 t2 n1 n2 =>
      simp only [Bool.and_eq_true] at h
      exact Or.inr ⟨y1, y2, y3, y4, m1, m2, d1, d2, t1, t2, n1, n2, rfl,
        h.1.1.1.1.1.1, h.1.1.1.1.1.2, h.1.1.1.1.2, h.1.1.1.2, h.1.1.2, h.1.2, h.2.1, h.2.2⟩
    case _ =>
      simp at h
  case _ =>
    simp at h

lemma spec_implies_pattern {l : List Char} (h : dateSpecAcceptsL l = true) :
    datePattern l = true := by
  unfold dateSpecAcceptsL at h
  split at h
  case _ y1 y2 y3 y4 m1 m2 d1 d2 =>
    simp only [specDateCore, Bool.and_eq_true] at h
    obtain ⟨⟨⟨⟨⟨⟨⟨⟨hy1, hy2⟩, hy3⟩, hy4⟩, hm1⟩, hm2⟩, hd1⟩, hd2⟩, hreal⟩ := h
    obtain ⟨hm, hm', hd, hd'⟩ := isRealDate_month hreal
    simp only [datePattern, Bool.and_eq_true]
    exact ⟨⟨⟨⟨⟨⟨hy1, hy2⟩, hy3⟩, hy4⟩,
      (monthPat_iff m1 m2).mpr ⟨hm1, hm2, hm, hm'⟩⟩,
      (dayPat_iff d1 d2).mpr ⟨hd1, hd2, hd, hd'⟩⟩, trivial⟩
  case _ y1 y2 y3 y4 m1 m2 d1 d2 t1 t2 n1 n2 =>
    simp only [specDateCore, specTimeValid, Bool.and_eq_true, decide_eq_true_iff] at h
    obtain ⟨⟨⟨⟨⟨⟨⟨⟨⟨hy1, hy2⟩, hy3⟩, hy4⟩, hm1⟩, hm2⟩, hd1⟩, hd2⟩, hreal⟩,
      ⟨⟨⟨⟨⟨ht1, ht2⟩, hn1⟩, hn2⟩, hhh⟩, hmm⟩⟩ := h
    obtain ⟨hm, hm', hd, hd'⟩ := isRealDate_month hreal
    simp only [datePattern, Bool.and_eq_true]
    exact ⟨⟨⟨⟨⟨⟨hy1, hy2⟩, hy3⟩, hy4⟩,
      (monthPat_iff m1 m2).mpr ⟨hm1, hm2, hm, hm'⟩⟩,
      (dayPat_iff d1 d2).mpr ⟨hd1, hd2, hd, hd'⟩⟩,
      (hourPat_iff t1 t2).mpr ⟨ht1, ht2, hhh⟩,
      (minutePat_iff n1 n2).mpr ⟨hn1, hn2, hmm⟩⟩
  case _ =>
    simp at h


lemma takeWhile_ne_T {l : List Char} (h : ∀ c ∈ l, ¬(c = 'T')) :
    l.takeWhile (fun c => c ≠ 'T') = l := by
  induction l with
  | nil => rfl
  | cons a t ih =>
      simp only [List.takeWhile_cons]
      rw [decide_eq_true (h a (List.mem_cons_self a t))]
      simp only [if_true, ih fun c hc => h c (List.mem_cons_of_mem a hc)]

lemma dropWhile_ne_T {l : List Char} (h : ∀ c ∈ l, ¬(c = 'T')) :
    l.dropWhile (fun c => c ≠ 'T') = [] := by
  induction l with
  | nil => rfl
  | cons a t ih =>
      simp only [List.dropWhile_cons]
      rw [decide_eq_true (h a (List.mem_cons_self a t))]
      simp only [ih fun c hc => h c (List.mem_cons_of_mem a hc), if_true]

lemma takeWhile_append_T (pre suf : List Char) (h : ∀ c ∈ pre, ¬(c = 'T')) :
    (pre ++ 'T' :: suf).takeWhile (fun c => c ≠ 'T') = pre ∧
    (pre ++ 'T' :: suf).dropWhile (fun c => c ≠ 'T') = 'T' :: suf := by
  induction pre with
  | nil =>
      constructor
      · simp [List.takeWhile_cons]
      · simp [List.dropWhile_cons]
  | cons a t ih =>
      obtain ⟨iht, ihd⟩ := ih fun c hc => h c (List.mem_cons_of_mem a hc)
      have ha := decide_eq_true (h a (List.mem_cons_self a t))
      constructor
      · simp only [List.cons_append, List.takeWhile_cons, ha, if_true, iht]
      · simp only [List.cons_append, List.dropWhile_cons, ha, if_true, ihd]

theorem validateFieldDateL_eq (l : List Char) :
    validateFieldDateL l = dateSpecAcceptsL l := by
  cases hp : datePattern l with
  | false =>
      have hs : dateSpecAcceptsL l = false := by
        cases hq : dateSpecAcceptsL l
        · rfl
        · exact absurd (spec_implies_pattern hq) (by simp [hp])
      rw [validateFieldDateL, hp, hs, Bool.and_false]
  | true =>
      rcases datePattern_true_elim hp with
        ⟨y1, y2, y3, y4, m1, m2, d1, d2, rfl, hy1, hy2, hy3, hy4, hm, hd⟩ |
        ⟨y1, y2, y3, y4, m1, m2, d1, d2, t1, t2, n1, n2, rfl,
          hy1, hy2, hy3, hy4, hm, hd, hh, hn⟩
      · obtain ⟨hm1, hm2, -, -⟩ := (monthPat_iff m1 m2).mp hm
        obtain ⟨hd1, hd2, -, -⟩ := (dayPat_iff d1 d2).mp hd
        have hall : ∀ c ∈ ([y1, y2, y3, y4, '-', m1, m2, '-', d1, d2] : List Char),
            ¬(c = 'T') := by
          intro c hc
          simp only [List.mem_cons, List.not_mem_nil, or_false] at hc
          rcases hc with rfl | rfl | rfl | rfl | rfl | rfl | rfl | rfl | rfl | rfl
          · exact ne_T_of_digit hy1
          · exact ne_T_of_digit hy2
          · exact ne_T_of_digit hy3
          · exact ne_T_of_digit hy4
          · exact dash_ne_T
          · exact ne_T_of_digit hm1
          · exact ne_T_of_digit hm2
          · exact dash_ne_T
          · exact ne_T_of_digit hd1
          · exact ne_T_of_digit hd2
        rw [validateFieldDateL, hp, Bool.and_true]
        rw [dateTest]
        simp only [takeWhile_ne_T hall, dropWhile_ne_T hall, List.isEmpty_cons,
          Bool.false_eq_true, if_false]
        simp only [jsIsoRoundTrip, dateSpecAcceptsL, specDateCore, Bool.and_true]
      · obtain ⟨hm1, hm2, -, -⟩ := (monthPat_iff m1 m2).mp hm
        obtain ⟨hd1, hd2, -, -⟩ := (dayPat_iff d1 d2).mp hd
        obtain ⟨ht1, ht2, hhv⟩ := (hourPat_iff t1 t2).mp hh
        obtain ⟨hn1, hn2, hnv⟩ := (minutePat_iff n1 n2).mp hn
        have hallpre : ∀ c ∈ ([y1, y2, y3, y4, '-', m1, m2, '-', d1, d2] : List Char),
            ¬(c = 'T') := by
          intro c hc
          simp only [List.mem_cons, List.not_mem_nil, or_false] at hc
          rcases hc with rfl | rfl | rfl | rfl | rfl | rfl | rfl | rfl | rfl | rfl
          · exact ne_T_of_digit hy1
          · exact ne_T_of_digit hy2
          · exact ne_T_of_digit hy3
          · exact ne_T_of_digit hy4
          · exact dash_ne_T
          · exact ne_T_of_digit hm1
          · exact ne_T_of_digit hm2
          · exact dash_ne_T
          · exact ne_T_of_digit hd1
          · exact ne_T_of_digit hd2
        have hsplit := takeWhile_append_T [y1, y2, y3, y4, '-', m1, m2, '-', d1, d2]
          [t1, t2, ':', n1, n2] hallpre
        have halltail : ∀ c ∈ ([t1, t2, ':', n1, n2] : List Char), ¬(c = 'T') := by
          intro c hc
          simp only [List.mem_cons, List.not_mem_nil, or_false] at hc
          rcases hc with rfl | rfl | rfl | rfl | rfl
          · exact ne_T_of_digit ht1
          · exact ne_T_of_digit ht2
          · exact colon_ne_T
          · exact ne_T_of_digit hn1
          · exact ne_T_of_digit hn2
        have heq : ([y1, y2, y3, y4, '-', m1, m2, '-', d1, d2, 'T', t1, t2, ':', n1, n2] :
            List Char) =
            [y1, y2, y3, y4, '-', m1, m2, '-', d1, d2] ++ 'T' :: [t1, t2, ':', n1, n2] := rfl
        rw [← heq] at hsplit
        rw [validateFieldDateL, hp, Bool.and_true, dateTest]
        simp only [hsplit.1, hsplit.2, List.isEmpty_cons, Bool.false_eq_true, if_false]
        simp only [takeWhile_ne_T halltail, List.isEmpty_cons, Bool.false_eq_true, if_false]
        have hT : timeFormatPat [t1, t2, ':', n1, n2] = true := by
          unfold timeFormatPat
          split
          · rename_i heqa
            simp only [List.cons.injEq, and_true] at heqa
            obtain ⟨-, hcolon, -⟩ := heqa
            rw [hcolon] at ht2
            exact absurd ht2 (by decide)
          · rename_i heqa
            simp only [List.cons.injEq, and_true] at heqa
            obtain ⟨ha, hb, -, hx, hy⟩ := heqa
            subst ha; subst hb; subst hx; subst hy
            have hht : (hourPat t1 t2 && minutePat n1 n2) = true := by simp [hh, hn]
            exact hht
          · rename_i hno1 hno2
            exact absurd rfl (hno2 t1 t2 n1 n2)
        rw [hT, Bool.and_true]
        have hTV : specTimeValid t1 t2 n1 n2 = true := by
          simp only [specTimeValid, ht1, ht2, hn1, hn2, decide_eq_true hhv,
            decide_eq_true hnv, Bool.and_self, Bool.and_true]
        simp only [dateSpecAcceptsL, hTV, Bool.and_true]
        simp only [jsIsoRoundTrip, specDateCore]


/-- The two `if` cascades for the cap status tier agree: the code's
`if >100 … else if >80 … else` equals the disjunctive formulation. -/
lemma status_tier_eq (p : ℚ) :
    (if p > 100 then "success" else if p > 80 then "warning" else "success") =
    (if p ≤ 80 ∨ p > 100 then "success" else "warning") := by
  by_cases h100 : p > 100
  · simp [h100]
  · by_cases h80 : p > 80
    · simp [h100, h80, not_le.mpr h80]
    · simp [h100, h80, le_of_not_lt h80]

/-- `applyPatch` keeps every task either satisfying the `completedAt`
invariant or in the documented legacy form, provided the patch does not set
`completedAt` directly. -/
lemma applyPatch_inv (t : Task) (p : TaskPatch) (now : String)
    (hp : p.completedAt = none)
    (h : completedAtInvariant t ∨ isLegacyCompleted t) :
    completedAtInvariant (applyPatch t p now) ∨ isLegacyCompleted (applyPatch t p now) := by
  unfold completedAtInvariant isLegacyCompleted at *
  cases hc : p.completed with
  | none =>
      simp only [applyPatch, hc, hp, Option.getD_none]
      simpa using h
  | some b =>
      cases b with
      | true =>
          cases ht : t.completed with
          | true =>
              cases hca : t.completedAt with
              | none =>
                  left
                  simp [applyPatch, hc, hp, ht, hca]
              | some ts =>
                  left
                  simp [applyPatch, hc, hp, ht, hca]
          | false =>
              left
              simp [applyPatch, hc, hp, ht]
      | false =>
          cases ht : t.completed with
          | true =>
              left
              simp [applyPatch, hc, hp, ht]
          | false =>
              simp only [ht, Bool.false_eq_true, false_iff, false_and, or_false] at h
              left
              simp only [applyPatch, hc, hp, Option.getD_none, ht]
              simp only [Bool.and_false, Bool.false_and, Bool.not_false, Bool.true_and,
                Bool.and_self, if_neg (Bool.false_ne_true), ne_eq]
              simpa using h

lemma litFindAux_some (pat text : List Char) :
    ∀ fuel pos i, litFindAux pat text fuel pos = some i →
      pos ≤ i ∧ i ≤ text.length ∧ pat.isPrefixOf (text.drop i) = true := by
  intro fuel
  induction fuel with
  | zero => intro pos i h; simp [litFindAux] at h
  | succ fuel ih =>
      intro pos i h
      rw [litFindAux] at h
      split at h
      · exact absurd h (by simp)
      · split at h
        · rename_i hlen hpre
          obtain rfl : pos = i := by simpa using h
          exact ⟨le_refl _, by omega, hpre⟩
        · obtain ⟨h1, h2, h3⟩ := ih (pos + 1) i h
          exact ⟨by omega, h2, h3⟩

lemma foldCase_length (ci : Bool) (l : List Char) : (foldCase ci l).length = l.length := by
  unfold foldCase
  split <;> simp

lemma isPrefixOf_length_le : ∀ (l1 l2 : List Char), l1.isPrefixOf l2 = true →
    l1.length ≤ l2.length
  | [], _, _ => Nat.zero_le _
  | _ :: _, [], h => by simp [List.isPrefixOf] at h
  | _ :: l1, _ :: l2, h => by
      simp only [List.isPrefixOf, Bool.and_eq_true] at h
      simpa using Nat.succ_le_succ (isPrefixOf_length_le l1 l2 h.2)

lemma litRegex_find_bounds (ci g : Bool) (pat : String) (text : List Char) :
    ∀ pos i len, (litRegex ci g pat).find text pos = some (i, len) →
      pos ≤ i ∧ i + len ≤ text.length := by
  intro pos i len h
  simp only [litRegex, Option.map_eq_some'] at h
  obtain ⟨j, hj, hji⟩ := h
  rw [Prod.mk.injEq] at hji
  obtain ⟨rfl, rfl⟩ := hji
  obtain ⟨h1, h2, h3⟩ := litFindAux_some _ _ _ _ _ hj
  have hlen := isPrefixOf_length_le _ _ h3
  simp only [List.length_drop, foldCase_length] at h2 hlen
  exact ⟨h1, by omega⟩

lemma collectMatches_global_isSome
    (r : CompiledRegex) (text : List Char)
    (hw : ∀ pos i len, r.find text pos = some (i, len) → pos ≤ i ∧ i + len ≤ text.length)
    (hg : r.global = true) :
    ∀ fuel lastIndex, lastIndex ≤ text.length + 1 →
      text.length + 2 - lastIndex ≤ fuel →
      (collectMatches r text fuel lastIndex).isSome = true := by
  intro fuel
  induction fuel with
  | zero => intro li h1 h2; omega
  | succ fuel ih =>
      intro li hle hfuel
      rw [collectMatches]
      cases hstep : execStep r text li with
      | none => simp
      | some p =>
          obtain ⟨⟨i, len⟩, li1⟩ := p
          simp only [execStep, hg, if_true] at hstep
          cases hfind : r.find text li with
          | none => rw [hfind] at hstep; exact absurd hstep (by simp)
          | some q =>
              obtain ⟨i', len'⟩ := q
              rw [hfind] at hstep
              simp only [Option.some.injEq, Prod.mk.injEq] at hstep
              obtain ⟨⟨rfl, rfl⟩, rfl⟩ := hstep
              obtain ⟨hwi, hwl⟩ := hw li i' len' hfind
              have hrec : (collectMatches r text fuel
                  (if i' = i' + len' then i' + len' + 1 else i' + len')).isSome = true := by
                apply ih
                · split <;> omega
                · split <;> omega
              cases hcm : collectMatches r text fuel
                  (if i' = i' + len' then i' + len' + 1 else i' + len') with
              | none => rw [hcm] at hrec; exact absurd hrec (by simp)
              | some ms =>
                  simp only [hcm]
                  rfl


lemma nonGlobal_a_step :
    execStep (litRegex true false "a") "a".data li = some ((0, 1), li) := by
  simp only [execStep, litRegex, Bool.false_eq_true, if_false]
  rfl

lemma nonGlobal_a_stuck : ∀ fuel, collectMatches (litRegex true false "a") "a".data fuel 1 = none := by
  intro fuel
  induction fuel with
  | zero => rfl
  | succ fuel ih =>
      rw [collectMatches, nonGlobal_a_step]
      simp [ih]

lemma nonGlobal_a_never : ∀ fuel, collectMatches (litRegex true false "a") "a".data fuel 0 = none := by
  intro fuel
  cases fuel with
  | zero => rfl
  | succ fuel =>
      rw [collectMatches, nonGlobal_a_step]
      simp [nonGlobal_a_stuck fuel]

lemma litFindAux_none (pat text : List Char) (hne : pat ≠ []) :
    ∀ fuel pos, text.length + 1 - pos ≤ fuel →
      litFindAux pat text fuel pos = none →
      ∀ i, pos ≤ i → pat.isPrefixOf (text.drop i) = false := by
  intro fuel
  induction fuel with
  | zero =>
      intro pos hfuel _ i hi
      rw [List.drop_eq_nil_of_le (by omega)]
      cases pat with
      | nil => exact absurd rfl hne
      | cons a l => rfl
  | succ fuel ih =>
      intro pos hfuel hnone i hi
      rw [litFindAux] at hnone
      split at hnone
      · rename_i hlen
        rw [List.drop_eq_nil_of_le (by omega)]
        cases pat with
        | nil => exact absurd rfl hne
        | cons a l => rfl
      · split at hnone
        · exact absurd hnone (by simp)
        · rename_i hlen hpre
          rcases Nat.eq_or_lt_of_le hi with rfl | hlt
          · exact Bool.eq_false_iff.mpr hpre
          · exact ih (pos + 1) (by omega) hnone i (by omega)

lemma execStep_global_none {r : CompiledRegex} (hg : r.global = true)
    {text : List Char} {li : Nat} (h : r.find text li = none) :
    execStep r text li = none := by
  simp [execStep, hg, h]

lemma execStep_global_some {r : CompiledRegex} (hg : r.global = true)
    {text : List Char} {li i len : Nat} (h : r.find text li = some (i, len)) :
    execStep r text li = some ((i, len), i + len) := by
  simp [execStep, hg, h]

lemma testRegexMatches_litRegex_nil_iff (ci : Bool) (pat : String) (text : List Char)
    (hne : pat.data ≠ []) :
    (testRegexMatches (litRegex ci true pat) text = []) ↔
      substringOccurs (foldCase ci pat.data) (foldCase ci text) = false := by
  have hfold : foldCase ci pat.data ≠ [] := by
    unfold foldCase
    split
    · simpa using hne
    · exact hne
  have hsome := collectMatches_global_isSome (litRegex ci true pat) text
    (litRegex_find_bounds ci true pat text) rfl (text.length + 2) 0 (by omega) (by omega)
  unfold testRegexMatches
  rw [show text.length + 2 = (text.length + 1) + 1 from rfl, collectMatches]
  cases hfind : (litRegex ci true pat).find text 0 with
  | none =>
      rw [execStep_global_none rfl hfind]
      have hlit : litFind (foldCase ci pat.data) (foldCase ci text) 0 = none := by
        simp only [litRegex, Option.map_eq_none'] at hfind
        exact hfind
      have hnone := litFindAux_none (foldCase ci pat.data) (foldCase ci text)
        hfold _ 0 (by omega) hlit
      have hocc : substringOccurs (foldCase ci pat.data) (foldCase ci text) = false := by
        simp only [substringOccurs, List.any_eq_false]
        intro i hir
        simp [hnone i (Nat.zero_le i)]
      simp [hocc]
  | some q =>
      obtain ⟨i, len⟩ := q
      rw [execStep_global_some rfl hfind]
      have hlit : ∃ j, litFind (foldCase ci pat.data) (foldCase ci text) 0 = some j := by
        simp only [litRegex, Option.map_eq_some'] at hfind
        obtain ⟨j, hj, -⟩ := hfind
        exact ⟨j, hj⟩
      obtain ⟨j, hj⟩ := hlit
      obtain ⟨-, hjlen, hjpre⟩ := litFindAux_some _ _ _ _ _ hj
      have hocc : substringOccurs (foldCase ci pat.data) (foldCase ci text) = true := by
        simp only [substringOccurs, List.any_eq_true]
        exact ⟨j, List.mem_range.mpr (by omega), hjpre⟩
      cases hcm : collectMatches (litRegex ci true pat) text (text.length + 1)
          (if i = i + len then i + len + 1 else i + len) with
      | none =>
          exfalso
          rw [show text.length + 2 = (text.length + 1) + 1 from rfl, collectMatches,
            execStep_global_some rfl hfind] at hsome
          simp only [hcm] at hsome
          exact absurd hsome (by simp)
      | some ms =>
          simp only [hcm, Option.getD_some, hocc]
          simp

lemma scoreField_none {q : String} (hq : q.data ≠ []) (t : Task) (f : String) (v : String)
    (hget : getTaskField t f = some v) (hocc : ciOccursIn q v = false) :
    scoreField (litRegex true true q) t f = none := by
  unfold scoreField
  rw [hget]
  by_cases he : v.data.isEmpty
  · simp [he]
  · have hnil := (testRegexMatches_litRegex_nil_iff true q v.data hq).mpr hocc
    simp [he, hnil]

lemma searchTaskResult_none {q : String} (hq : q.data ≠ []) (t : Task)
    (hocc : ciOccursInTask q t = false) :
    searchTaskResult (litRegex true true q) ["title", "description", "tag"] t = none := by
  simp only [ciOccursInTask, Bool.or_eq_false_iff] at hocc
  obtain ⟨⟨hti, hde⟩, hta⟩ := hocc
  have h1 := scoreField_none hq t "title" t.title rfl hti
  have h2 := scoreField_none hq t "description" t.description rfl hde
  have h3 := scoreField_none hq t "tag" t.tag rfl hta
  unfold searchTaskResult
  simp [List.filterMap_cons, h1, h2, h3]

lemma substringOccurs_ne_nil {pat text : List Char} (hne : pat ≠ [])
    (h : substringOccurs pat text = true) : text ≠ [] := by
  rintro rfl
  simp only [substringOccurs, List.any_eq_true] at h
  obtain ⟨i, -, hpre⟩ := h
  rw [List.drop_nil] at hpre
  cases pat with
  | nil => exact hne rfl
  | cons a l => exact absurd hpre (by simp [List.isPrefixOf])

lemma searchTaskResult_tag_only {q : String} (hq : q.data ≠ []) (t : Task)
    (htag : ciOccursIn q t.tag = true)
    (hti : ciOccursIn q t.title = false) (hde : ciOccursIn q t.description = false) :
    ∃ r, searchTaskResult (litRegex true true q) ["title", "description", "tag"] t = some r ∧
      r.task = t ∧ 0 < r.score := by
  have hfq : foldCase true q.data ≠ [] := by
    unfold foldCase
    simpa using hq
  have h1 := scoreField_none hq t "title" t.title rfl hti
  have h2 := scoreField_none hq t "description" t.description rfl hde
  unfold ciOccursIn at htag
  have htagne : t.tag.data ≠ [] := by
    have := substringOccurs_ne_nil hfq htag
    intro hcon
    exact this (by simp [foldCase, hcon])
  have hms : testRegexMatches (litRegex true true q) t.tag.data ≠ [] := by
    intro hcon
    rw [(testRegexMatches_litRegex_nil_iff true q t.tag.data hq).mp hcon] at htag
    exact absurd htag (by simp)
  have hlen : 0 < (testRegexMatches (litRegex true true q) t.tag.data).length :=
    List.length_pos.mpr hms
  have hne' : t.tag.data.isEmpty = false := by
    cases hd : t.tag.data
    · exact absurd hd htagne
    · rfl
  have h3 : scoreField (litRegex true true q) t "tag" =
      some { field := "tag", value := t.tag,
             matches' := testRegexMatches (litRegex true true q) t.tag.data,
             score := (testRegexMatches (litRegex true true q) t.tag.data).length *
               getFieldWeight "tag" } := by
    unfold scoreField
    rw [show getTaskField t "tag" = some t.tag from rfl]
    simp [hne', hlen]
  unfold searchTaskResult
  simp only [List.filterMap_cons, h1, h2, h3, List.filterMap_nil, List.isEmpty_cons,
    Bool.false_eq_true, if_false]
  refine ⟨_, rfl, rfl, ?_⟩
  simp only [List.map_cons, List.map_nil, List.sum_cons, List.sum_nil]
  have hw : getFieldWeight "tag" = 2 := rfl
  rw [hw]
  omega


lemma qdata_ne_nil_of_trim {q : String} (h : (jsTrim q).data.isEmpty = false) :
    q.data ≠ [] := by
  intro hcon
  have : (jsTrim q).data = [] := by
    simp [jsTrim, trimChars, hcon]
  rw [this] at h
  exact absurd h (by simp)

end Planner

namespace Planner

/-! # The claims -/

/-- C1 (counterexample): at achieved = 32.1 against the default goal 40 the
stored (rounded) `percentage` is 80, for which the claim's tier rule gives
`success`, yet `updateCapStatus` reports `warning`: the code applies the
tier thresholds to the unrounded percentage 80.25, not to the rounded
field the claim defines. -/
theorem updateCapStatus_rounded_tier_cex :
    (updateCapStatus (some 40) (some (321/10)) 0).percentage = 80 ∧
    claimCapTier 80 = "success" ∧
    (updateCapStatus (some 40) (some (321/10)) 0).capStatus = "warning" ∧
    (updateCapStatus (some 40) (some (321/10)) 0).capStatus ≠
      claimCapTier (updateCapStatus (some 40) (some (321/10)) 0).percentage := by
  have h1 : (updateCapStatus (some 40) (some (321/10)) 0).percentage = 80 := by
    simp [updateCapStatus, effectiveDurationCap, round_eq]
    norm_num
  have h2 : (updateCapStatus (some 40) (some (321/10)) 0).capStatus = "warning" := by
    norm_num [updateCapStatus, effectiveDurationCap]
  refine ⟨h1, by norm_num [claimCapTier], h2, ?_⟩
  rw [h1, h2]
  norm_num [claimCapTier]
  decide

/-- C1 (amended): for the default weekly goal 40 and every supplied
achieved amount, `updateCapStatus` stores `percentage = round(a/40·100)`
and `isOverCap = (a > 40)`, and the three-tier status is decided by the
exact (unrounded) percentage — `success` when it is ≤ 80 or > 100,
`warning` on (80, 100]; the spot checks 32 → 80/`success`,
36 → 90/`warning`, 44 → 110/`success` hold. -/
theorem updateCapStatus_tier_rule :
    (∀ a : ℚ,
      (updateCapStatus (some 40) (some a) 0).percentage = round (a / 40 * 100) ∧
      (updateCapStatus (some 40) (some a) 0).isOverCap = decide (a > 40) ∧
      (updateCapStatus (some 40) (some a) 0).capStatus =
        (if a / 40 * 100 ≤ 80 ∨ a / 40 * 100 > 100 then "success" else "warning")) ∧
    (updateCapStatus (some 40) (some 32) 0).percentage = 80 ∧
    (updateCapStatus (some 40) (some 32) 0).capStatus = "success" ∧
    (updateCapStatus (some 40) (some 36) 0).percentage = 90 ∧
    (updateCapStatus (some 40) (some 36) 0).capStatus = "warning" ∧
    (updateCapStatus (some 40) (some 44) 0).percentage = 110 ∧
    (updateCapStatus (some 40) (some 44) 0).capStatus = "success" := by
  refine ⟨fun a => ⟨rfl, rfl, ?_⟩, ?_, ?_, ?_, ?_, ?_, ?_⟩
  · show (if a / 40 * 100 > 100 then "success"
        else if a / 40 * 100 > 80 then "warning" else "success") = _
    exact status_tier_eq _
  · simp [updateCapStatus, effectiveDurationCap, round_eq]
    norm_num
  · norm_num [updateCapStatus, effectiveDurationCap]
  · simp [updateCapStatus, effectiveDurationCap, round_eq]
    norm_num
  · norm_num [updateCapStatus, effectiveDurationCap]
  · simp [updateCapStatus, effectiveDurationCap, round_eq]
    norm_num
  · norm_num [updateCapStatus, effectiveDurationCap]

/-- C10: `updateCapStatus` never divides by a zero goal — the JS
`settings.durationCap || 40` maps a stored cap of `0` (and an absent cap)
to the default goal 40, so a user-entered weekly goal of 0 (which the
settings form accepts, `val >= 0`) is evaluated against 40. -/
theorem updateCapStatus_zero_cap_default :
    ∀ (cap : Option ℚ) (cur : Option ℚ) (tot : ℚ),
      (updateCapStatus cap cur tot).durationCap ≠ 0 ∧
      updateCapStatus (some 0) cur tot = updateCapStatus none cur tot ∧
      (updateCapStatus none cur tot).durationCap = 40 := by
  intro cap cur tot
  refine ⟨?_, ?_, rfl⟩
  · match cap with
    | none => norm_num [updateCapStatus, effectiveDurationCap]
    | some c =>
        by_cases hc : c = 0
        · simp [updateCapStatus, effectiveDurationCap, hc]
        · simp [updateCapStatus, effectiveDurationCap, hc]
  · simp [updateCapStatus, effectiveDurationCap]

/-- C10 (witness): a concrete cap of 0 is treated as the default 40. -/
theorem updateCapStatus_zero_cap_witness :
    (updateCapStatus (some 0) (some 5) 0).durationCap ≠ 0 ∧
    updateCapStatus (some 0) (some 5) 0 = updateCapStatus none (some 5) 0 ∧
    (updateCapStatus none (some 5) 0).durationCap = 40 :=
  updateCapStatus_zero_cap_default (some 0) (some 5) 0

/-- C2 (counterexample): `updateTask` with a patch that sets `completedAt`
directly returns `true` and leaves a task with `completed = false` and a
non-null `completedAt` — violating the claimed invariant, and not of the
legacy form (completed without timestamp) the claim excepts. -/
theorem completedAt_direct_patch_cex :
    (updateTask (fun _ => true) "2025-02-03T00:00:00.000Z" "t1" cexPatch cexState).1 = true ∧
    ∀ t ∈ (updateTask (fun _ => true) "2025-02-03T00:00:00.000Z" "t1" cexPatch
        cexState).2.tasks,
      ¬completedAtInvariant t ∧ ¬isLegacyCompleted t := by
  decide

/-- C2 (amended): provided the patch does not itself set `completedAt`,
`addTask` and `updateTask` returning `true` leave every stored task either
satisfying `completed = true ↔ completedAt ≠ null` or in the documented
legacy form (completed without timestamp, untouched by this call); and the
documented fallback sets `completedAt` to the new `updatedAt` when a
completed patch re-marks a legacy task as completed. -/
theorem completedAt_invariant_preserved :
    ∀ (save : List Task → Bool) (genId now : String) (d : TaskFormData)
      (taskId : String) (p : TaskPatch) (st : TaskState),
      (∀ t ∈ st.tasks, completedAtInvariant t ∨ isLegacyCompleted t) →
      p.completedAt = none →
      ((addTask save genId now d st).1 = true →
        ∀ t ∈ (addTask save genId now d st).2.tasks,
          completedAtInvariant t ∨ isLegacyCompleted t) ∧
      ((updateTask save now taskId p st).1 = true →
        ∀ t ∈ (updateTask save now taskId p st).2.tasks,
          completedAtInvariant t ∨ isLegacyCompleted t) ∧
      (∀ t0 : Task, t0.completed = true → t0.completedAt = none → p.completed = some true →
        (applyPatch t0 p now).completedAt = some ((applyPatch t0 p now).updatedAt) ∧
        (applyPatch t0 p now).updatedAt = now) := by
  intro save genId now d taskId p st hpre hp
  refine ⟨?_, ?_, ?_⟩
  · intro hsucc t ht
    unfold addTask at hsucc ht
    dsimp only at hsucc ht
    split at hsucc
    · exact absurd hsucc (by simp)
    · rename_i hval
      split at hsucc
      · rename_i hsave
        rw [if_neg hval, if_pos hsave] at ht
        dsimp only at ht
        rcases List.mem_append.mp ht with hmem | hnew
        · exact hpre t hmem
        · left
          rcases List.mem_singleton.mp hnew with rfl
          unfold completedAtInvariant
          simp
      · exact absurd hsucc (by simp)
  · intro hsucc t ht
    unfold updateTask at hsucc ht
    dsimp only at hsucc ht
    cases hfind : st.tasks.find? (fun t => t.id = taskId) with
    | none =>
        rw [hfind] at hsucc
        exact absurd hsucc (by simp)
    | some prev =>
        rw [hfind] at hsucc ht
        dsimp only at hsucc ht
        split at hsucc
        · exact absurd hsucc (by simp)
        · rename_i hval
          split at hsucc
          · rename_i hsave
            rw [if_neg hval, if_pos hsave] at ht
            dsimp only at ht
            rcases List.mem_or_eq_of_mem_set ht with hmem | rfl
            · exact hpre t hmem
            · exact applyPatch_inv prev p now hp
                (hpre prev (List.mem_of_find?_eq_some hfind))
          · exact absurd hsucc (by simp)
  · intro t0 hc0 hca0 hpc
    constructor
    · simp [applyPatch, hpc, hp, hc0, hca0]
    · simp [applyPatch, hpc, hp, hc0, hca0]

/-- C2 (witness): re-marking a stored legacy task as completed succeeds and
re-establishes the invariant for every stored task. -/
theorem completedAt_invariant_witness :
    (updateTask (fun _ => true) "2025-03-01T00:00:00.000Z" "t2"
        { completed := some true } legacyState).1 = true ∧
    ∀ t ∈ (updateTask (fun _ => true) "2025-03-01T00:00:00.000Z" "t2"
        { completed := some true } legacyState).2.tasks,
      completedAtInvariant t ∨ isLegacyCompleted t :=
  ⟨by decide,
    (completedAt_invariant_preserved (fun _ => true) "g1" "2025-03-01T00:00:00.000Z"
        { title := "x", dueDate := "2099-01-01", duration := 1, tag := "Work" }
        "t2" { completed := some true } legacyState (by decide) rfl).2.1 (by decide)⟩

end Planner

namespace Planner

/-- C3 (counterexample): the query "WORK" occurs (as an exact substring)
only in the first task's tag, and in no field of the second task — yet the
default case-insensitive search returns both tasks, because "WORK" matches
"work tonight" in the second task's title under the `i` flag. -/
theorem searchTasks_casefold_cex :
    substringOccurs "WORK".data searchT1.tag.data = true ∧
    exactOccursInTask "WORK" searchT2 = false ∧
    (searchTasks jsLiteralEngine "WORK" [searchT1, searchT2] {}).length = 2 := by
  decide

/-- C3 (amended): an empty or whitespace-only query returns every task as a
zero-score result; and a non-empty query without regex metacharacters that
occurs case-insensitively (the default matching mode) in exactly one
task — in its tag — and in no other searched field of any task, returns
exactly that task, with positive score. -/
theorem searchTasks_query_results :
    (∀ (engine : RegexEngine) (query : String) (tasks : List Task) (opts : SearchOptions),
        (jsTrim query).data.isEmpty = true →
        searchTasks engine query tasks opts = tasks.map (fun t => { task := t })) ∧
    (∀ (query : String) (pre post : List Task) (tgt : Task),
        (jsTrim query).data.isEmpty = false →
        query.data.any isRegexMetachar = false →
        ciOccursIn query tgt.tag = true →
        ciOccursIn query tgt.title = false →
        ciOccursIn query tgt.description = false →
        (∀ t ∈ pre ++ post, ciOccursInTask query t = false) →
        ((searchTasks jsLiteralEngine query (pre ++ tgt :: post) {}).map SearchResult.task =
            [tgt] ∧
          ∀ r ∈ searchTasks jsLiteralEngine query (pre ++ tgt :: post) {}, 0 < r.score)) := by
  constructor
  · intro engine query tasks opts htrim
    unfold searchTasks
    rw [if_pos htrim]
  · intro query pre post tgt htrim hmeta htag hti hde hothers
    have hq : query.data ≠ [] := qdata_ne_nil_of_trim htrim
    have hcomp : compileRegex jsLiteralEngine query
        { global := true, ignoreCase := !false } = some (litRegex true true query) := by
      unfold compileRegex jsLiteralEngine
      rw [if_neg (by simp [htrim]), hmeta]
      rfl
    have hpre : ∀ t ∈ pre, searchTaskResult (litRegex true true query)
        ["title", "description", "tag"] t = none := fun t ht =>
      searchTaskResult_none hq t (hothers t (List.mem_append.mpr (Or.inl ht)))
    have hpost : ∀ t ∈ post, searchTaskResult (litRegex true true query)
        ["title", "description", "tag"] t = none := fun t ht =>
      searchTaskResult_none hq t (hothers t (List.mem_append.mpr (Or.inr ht)))
    obtain ⟨r, hr, hrt, hrs⟩ := searchTaskResult_tag_only hq tgt htag hti hde
    have hflt : (pre ++ tgt :: post).filterMap
        (searchTaskResult (litRegex true true query) ["title", "description", "tag"]) =
        [r] := by
      rw [List.filterMap_append, List.filterMap_cons]
      rw [List.filterMap_eq_nil_iff.mpr hpre, List.filterMap_eq_nil_iff.mpr hpost, hr]
      rfl
    have hform : searchTasks jsLiteralEngine query (pre ++ tgt :: post) {} = [r] := by
      unfold searchTasks
      dsimp only
      rw [if_neg (by simp [htrim])]
      rw [hcomp]
      dsimp only
      rw [hflt]
      rfl
    rw [hform]
    constructor
    · simp [hrt]
    · intro s hs
      rw [List.mem_singleton.mp hs]
      exact hrs

/-- C3 (witness): a whitespace query returns the lone task with score 0,
and the query "play", occurring case-insensitively only in the second
task's tag, returns exactly that task with positive score. -/
theorem searchTasks_query_witness :
    searchTasks jsLiteralEngine " " [searchT1] {} = [{ task := searchT1 }] ∧
    (searchTasks jsLiteralEngine "play" ([searchT1] ++ searchT2 :: []) {}).map
      SearchResult.task = [searchT2] ∧
    (∀ r ∈ searchTasks jsLiteralEngine "play" ([searchT1] ++ searchT2 :: []) {},
      0 < r.score) := by
  refine ⟨?_, ?_, ?_⟩
  · rw [searchTasks_query_results.1 jsLiteralEngine " " [searchT1] {} (by decide)]
    rfl
  · exact (searchTasks_query_results.2 "play" [searchT1] [] searchT2 (by decide) (by decide)
      (by decide) (by decide) (by decide) (by decide)).1
  · exact (searchTasks_query_results.2 "play" [searchT1] [] searchT2 (by decide) (by decide)
      (by decide) (by decide) (by decide) (by decide)).2

/-- C4: for every non-blank query whose compilation as a regular expression
fails (the engine — `new RegExp` — reports a malformed pattern),
`searchTasks` returns the empty result list; the `try/catch` in
`compileRegex` is modelled by the `Option`, so no exception reaches the
caller (the model is a total function). -/
theorem searchTasks_malformed_empty :
    ∀ (engine : RegexEngine) (query : String) (tasks : List Task)
      (opts : SearchOptions),
      (jsTrim query).data.isEmpty = false →
      engine query { global := true, ignoreCase := !opts.caseSensitive } = none →
      searchTasks engine query tasks opts = [] := by
  intro engine query tasks opts htrim heng
  unfold searchTasks compileRegex
  dsimp only
  rw [if_neg (by simp [htrim]), if_neg (by simp [htrim]), heng]

/-- C4 (witness): the malformed pattern "(" yields an empty result list. -/
theorem searchTasks_malformed_witness :
    searchTasks jsLiteralEngine "(" [searchT1] {} = [] :=
  searchTasks_malformed_empty jsLiteralEngine "(" [searchT1] {} (by decide) rfl

/-- C5: importing an export round-trips — for every task list whose members
pass the import's structural validation and every settings object,
`importData (exportData tasks settings)` succeeds with no errors, the same
settings object, and exactly the same task values. -/
theorem importData_exportData_roundtrip :
    ∀ (now : String) (tasks : List JVal) (settings : List (String × JVal)),
      (∀ t ∈ tasks, validateTaskStructure t = true) →
      importData (exportData now tasks (.obj settings)) =
        { success := true, tasks := tasks, settings := .obj settings, errors := [] } := by
  intro now tasks settings hval
  unfold importData exportData
  rw [if_neg (by simp [jtruthy, jisObjectType])]
  dsimp only
  have hlook : jlookup [("version", JVal.str "1.0"), ("exportedAt", JVal.str now),
      ("tasks", JVal.arr tasks), ("settings", JVal.obj settings)] "tasks" =
      some (JVal.arr tasks) := by
    simp [jlookup]
  have hlook2 : jlookup [("version", JVal.str "1.0"), ("exportedAt", JVal.str now),
      ("tasks", JVal.arr tasks), ("settings", JVal.obj settings)] "settings" =
      some (JVal.obj settings) := by
    simp [jlookup]
  rw [hlook, hlook2]
  dsimp only
  rw [List.filter_eq_self.mpr hval]
  simp [jtruthy, jisObjectType]

/-- C5 (witness): a concrete structurally-valid task and settings object
round-trip unchanged. -/
theorem importData_roundtrip_witness :
    importData (exportData "2025-01-01" [importTask1] (.obj importSettings)) =
      { success := true, tasks := [importTask1], settings := .obj importSettings,
        errors := [] } :=
  importData_exportData_roundtrip "2025-01-01" [importTask1] importSettings (by decide)

/-- C6: whenever `updateTask` or `deleteTask` fails because the id is not
in the collection or because the persistence adapter returns falsy, the
action returns `false`, sets a generic error, and leaves the in-memory
task collection exactly as it was (no partial commit). -/
theorem update_delete_failure_atomic :
    ∀ (save : List Task → Bool) (now taskId : String) (p : TaskPatch)
      (st : TaskState),
      ((∀ t ∈ st.tasks, ¬(t.id = taskId)) ∨ (∀ l, save l = false)) →
      ((updateTask save now taskId p st).1 = false ∧
       (updateTask save now taskId p st).2.tasks = st.tasks ∧
       (updateTask save now taskId p st).2.error ≠ none) ∧
      ((deleteTask save taskId st).1 = false ∧
       (deleteTask save taskId st).2.tasks = st.tasks ∧
       (deleteTask save taskId st).2.error ≠ none) := by
  intro save now taskId p st h
  constructor
  · unfold updateTask
    dsimp only
    cases hfind : st.tasks.find? (fun t => t.id = taskId) with
    | none =>
        exact ⟨rfl, rfl, by simp⟩
    | some prev =>
        dsimp only
        have hmem := List.mem_of_find?_eq_some hfind
        have hid : prev.id = taskId := by
          have := List.find?_some hfind
          simpa using this
        rcases h with hids | hsave
        · exact absurd hid (hids prev hmem)
        · split
          · exact ⟨rfl, rfl, by simp⟩
          · rw [if_neg (by simp [hsave])]
            exact ⟨rfl, rfl, by simp⟩
  · unfold deleteTask
    dsimp only
    split
    · exact ⟨rfl, rfl, by simp⟩
    · rename_i hlen
      rcases h with hids | hsave
      · exact absurd (by
          rw [List.filter_eq_self.mpr (by
            intro a ha
            simpa using hids a ha)]) hlen
      · rw [if_neg (by simp [hsave])]
        exact ⟨rfl, rfl, by simp⟩

/-- C6 (witness): updating or deleting a missing id fails, reports an
error, and leaves the concrete store untouched. -/
theorem update_delete_failure_witness :
    ((updateTask (fun _ => true) "2025-01-02T00:00:00.000Z" "missing" {} cexState).1 = false ∧
     (updateTask (fun _ => true) "2025-01-02T00:00:00.000Z" "missing" {} cexState).2.tasks =
       cexState.tasks ∧
     (updateTask (fun _ => true) "2025-01-02T00:00:00.000Z" "missing" {}
       cexState).2.error ≠ none) ∧
    ((deleteTask (fun _ => true) "missing" cexState).1 = false ∧
     (deleteTask (fun _ => true) "missing" cexState).2.tasks = cexState.tasks ∧
     (deleteTask (fun _ => true) "missing" cexState).2.error ≠ none) :=
  update_delete_failure_atomic (fun _ => true) "2025-01-02T00:00:00.000Z" "missing" {}
    cexState (Or.inl (by decide))

/-- C7: `validateField('date', s)` accepts `s` exactly when it is a
`YYYY-MM-DD` string denoting a real calendar date (the ISO round-trip
check), optionally followed by a valid `THH:MM` suffix; in particular
`2024-02-30` is rejected and `2024-02-29` accepted. -/
theorem validateField_date_spec :
    (∀ s : String, validateField_date s = dateSpecAccepts s) ∧
    validateField_date "2024-02-30" = false ∧
    validateField_date "2024-02-29" = true :=
  ⟨fun s => validateFieldDateL_eq s.data, by decide, by decide⟩

end Planner

namespace Planner

/-- C8 (counterexample): with duplicate labels in the question data the
rendered choice list contains a repeated distractor — even though four
distinct labels exist — because `renderQuestion` counts labels rather than
distinct labels. -/
theorem renderChoices_duplicate_labels_cex :
    (questionLabels [some "A", some "A", some "B", some "C", some "D"]).dedup.length = 4 ∧
    renderChoices id id [some "A", some "A", some "B", some "C", some "D"] "B" =
      ["B", "A", "A", "C"] ∧
    ¬(["B", "A", "A", "C"] : List String).Nodup := by
  decide

/-- C8 (amended): when the question labels are pairwise distinct (and at
least four exist, with the correct answer among them), the rendered choice
list has exactly four pairwise-distinct entries, contains the correct
answer exactly once, and every other entry is a label drawn from the
question data — for every pair of shuffle functions that permute their
input, as Fisher–Yates does. -/
theorem renderChoices_distinct_choices :
    ∀ (sh1 sh2 : List String → List String),
      (∀ l, List.Perm (sh1 l) l) → (∀ l, List.Perm (sh2 l) l) →
      ∀ (qs : List (Option String)) (correct : String),
        (questionLabels qs).Nodup → 4 ≤ (questionLabels qs).length →
        correct ∈ questionLabels qs →
        (renderChoices sh1 sh2 qs correct).length = 4 ∧
        (renderChoices sh1 sh2 qs correct).Nodup ∧
        (renderChoices sh1 sh2 qs correct).count correct = 1 ∧
        ∀ c ∈ renderChoices sh1 sh2 qs correct, c ≠ correct → c ∈ questionLabels qs := by
  intro sh1 sh2 hs1 hs2 qs correct hnd hlen hmem
  unfold renderChoices
  dsimp only
  rw [if_pos hlen]
  set labels := questionLabels qs with hlab
  set filtered := labels.filter (fun l => !(l = correct)) with hfil
  have hfnd : filtered.Nodup := hnd.filter _
  have hfmem : ∀ x ∈ filtered, x ∈ labels ∧ x ≠ correct := by
    intro x hx
    rw [hfil, List.mem_filter] at hx
    exact ⟨hx.1, by simpa using hx.2⟩
  have hflen : 3 ≤ filtered.length := by
    obtain ⟨l1, l2, hsplit⟩ := List.append_of_mem hmem
    rw [hfil, hsplit]
    rw [hsplit] at hnd
    have hnotl1 : correct ∉ l1 := by
      intro hc
      exact (List.disjoint_of_nodup_append hnd) hc (List.mem_cons_self _ _)
    have hnotl2 : correct ∉ l2 := by
      have := (List.nodup_append.mp hnd).2.1
      exact (List.nodup_cons.mp this).1
    rw [List.filter_append]
    have h1 : l1.filter (fun l => !(l = correct)) = l1 :=
      List.filter_eq_self.mpr fun a ha => by
        simp only [Bool.not_eq_true']
        exact decide_eq_false fun hc => hnotl1 (hc ▸ ha)
    have h2 : (correct :: l2).filter (fun l => !(l = correct)) = l2 := by
      rw [List.filter_cons]
      rw [if_neg (by simp)]
      exact List.filter_eq_self.mpr fun a ha => by
        simp only [Bool.not_eq_true']
        exact decide_eq_false fun hc => hnotl2 (hc ▸ ha)
    rw [h1, h2]
    have : labels.length = l1.length + (l2.length + 1) := by
      rw [hsplit]; simp
    simp only [List.length_append]
    omega
  have hperm1 := hs1 filtered
  have hs1nd : (sh1 filtered).Nodup := hperm1.nodup_iff.mpr hfnd
  set distractors := (sh1 filtered).take 3 with hdis
  have hdnd : distractors.Nodup := (List.take_sublist 3 (sh1 filtered)).nodup hs1nd
  have hdsub : ∀ x ∈ distractors, x ∈ filtered := by
    intro x hx
    exact hperm1.mem_iff.mp ((List.take_sublist 3 (sh1 filtered)).mem hx)
  have hdlen : distractors.length = 3 := by
    rw [hdis, List.length_take]
    have := hperm1.length_eq
    omega
  have hcnotd : correct ∉ distractors := by
    intro hc
    exact (hfmem _ (hdsub _ hc)).2 rfl
  have hcons_nd : (correct :: distractors).Nodup := List.nodup_cons.mpr ⟨hcnotd, hdnd⟩
  have hperm2 := hs2 (correct :: distractors)
  refine ⟨?_, ?_, ?_, ?_⟩
  · rw [hperm2.length_eq]
    simp [hdlen]
  · exact hperm2.nodup_iff.mpr hcons_nd
  · rw [hperm2.count_eq]
    rw [List.count_cons_self]
    rw [List.count_eq_zero_of_not_mem hcnotd]
  · intro c hc hne
    have := hperm2.mem_iff.mp hc
    rcases List.mem_cons.mp this with rfl | hd
    · exact absurd rfl hne
    · exact (hfmem _ (hdsub _ hd)).1

/-- C8 (witness): with the distinct labels A, B, C, D and correct answer B,
the identity shuffles yield four distinct choices containing B once. -/
theorem renderChoices_witness :
    (renderChoices id id [some "A", some "B", some "C", some "D"] "B").length = 4 ∧
    (renderChoices id id [some "A", some "B", some "C", some "D"] "B").Nodup ∧
    (renderChoices id id [some "A", some "B", some "C", some "D"] "B").count "B" = 1 ∧
    ∀ c ∈ renderChoices id id [some "A", some "B", some "C", some "D"] "B",
      c ≠ "B" → c ∈ questionLabels [some "A", some "B", some "C", some "D"] :=
  renderChoices_distinct_choices id id (fun l => List.Perm.refl l)
    (fun l => List.Perm.refl l) [some "A", some "B", some "C", some "D"] "B"
    (by decide) (by decide) (by decide)

/-- C9 (amended): the `while ((match = regex.exec(text)) !== null)` loop of
`testRegex` terminates whenever the compiled regex carries the `g` flag
(every call site passes `g`), for any well-behaved matcher: the fueled
model of the loop completes within `text.length + 2` iterations. The
unrounded claim — termination for arbitrary flags — is refuted separately. -/
theorem testRegex_global_loop_terminates :
    ∀ (r : CompiledRegex) (text : List Char),
      (∀ pos i len, r.find text pos = some (i, len) → pos ≤ i ∧ i + len ≤ text.length) →
      r.global = true →
      ∃ fuel, (collectMatches r text fuel 0).isSome = true := by
  intro r text hw hg
  exact ⟨text.length + 2, collectMatches_global_isSome r text hw hg
    (text.length + 2) 0 (by omega) (by omega)⟩

/-- C9 (counterexample): without the `g` flag `exec` ignores `lastIndex`,
so on a matching input the loop re-finds the same match forever — no
amount of fuel completes it. The pattern `a` (case-insensitive, non-global,
the defaults of `testRegex`) against the text `a` loops. -/
theorem testRegex_nonglobal_diverges_cex :
    (litRegex true false "a").global = false ∧
    ¬∃ fuel, (collectMatches (litRegex true false "a") "a".data fuel 0).isSome = true := by
  refine ⟨rfl, ?_⟩
  rintro ⟨fuel, h⟩
  rw [nonGlobal_a_never fuel] at h
  exact absurd h (by simp)

/-- C9 (witness): the literal global matcher for the empty pattern — a
zero-width match at every position — still terminates on the text "ab". -/
theorem testRegex_loop_witness :
    ∃ fuel, (collectMatches (litRegex true true "") "ab".data fuel 0).isSome = true :=
  testRegex_global_loop_terminates (litRegex true true "") "ab".data
    (litRegex_find_bounds true true "" "ab".data) rfl

end Planner

